import Mathlib

/-!
Verification development for the client-conversion pipeline of the
csv-filerock repository.  The definitions below are a shallow embedding of
the data processing code in `ConversionSummaryTable` (candidate matching,
purchase validation, conversion classification, summary statistics) and of
the `locationStats` rollup in `SmartQueryInterface`.  Raw CSV cells are
modelled as `Option String` (a missing column is `none`), JavaScript
numbers as `Option JNum` — an exact rational kept as a numerator/positive
denominator pair, with `none` playing the role of `NaN` — and JavaScript
`Date` values as `Option Int` milliseconds since the epoch (`none` is an
invalid date).
-/

namespace CsvRock

/-- A JavaScript number, modelled as an exact (unnormalised) rational:
a numerator and a positive denominator.  All values the pipeline builds
keep `den` positive. -/
structure JNum where
  num : Int
  den : Int
deriving DecidableEq

/-- The number `0`. -/
def JNum.zero : JNum := ⟨0, 1⟩

/-- A number from a natural count. -/
def JNum.ofNat (n : Nat) : JNum := ⟨(n : Int), 1⟩

/-- A number from an integer. -/
def JNum.ofInt (n : Int) : JNum := ⟨n, 1⟩

/-- Addition. -/
def JNum.add (a b : JNum) : JNum :=
  ⟨a.num * b.den + b.num * a.den, a.den * b.den⟩

/-- Multiplication. -/
def JNum.mul (a b : JNum) : JNum :=
  ⟨a.num * b.num, a.den * b.den⟩

/-- Division (the sign is moved into the numerator so the denominator
stays positive for a non-zero divisor). -/
def JNum.div (a b : JNum) : JNum :=
  ⟨a.num * b.den * Int.sign b.num, a.den * (b.num.natAbs : Int)⟩

/-- Strict order by cross multiplication (correct whenever both
denominators are positive, which holds for every value the pipeline
builds). -/
def JNum.Lt (a b : JNum) : Prop := a.num * b.den < b.num * a.den

/-- Non-strict order by cross multiplication. -/
def JNum.Le (a b : JNum) : Prop := a.num * b.den ≤ b.num * a.den

instance (a b : JNum) : Decidable (JNum.Lt a b) :=
  inferInstanceAs (Decidable (_ < _))

instance (a b : JNum) : Decidable (JNum.Le a b) :=
  inferInstanceAs (Decidable (_ ≤ _))

/-- JavaScript `a || d` for a possibly-missing string field: an absent field
and the empty string are falsy and fall through to the default. -/
def orS (v : Option String) (d : String) : String :=
  match v with
  | some s => if s = "" then d else s
  | none => d

/-- Whether `p` is a prefix of `l`, on character lists. -/
def startsWithChars : List Char → List Char → Bool
  | [], _ => true
  | _ :: _, [] => false
  | p :: ps, c :: cs => p == c && startsWithChars ps cs

/-- Whether the pattern occurs somewhere in the character list, as in
JavaScript `String.prototype.includes`. -/
def occursIn (pat : List Char) : List Char → Bool
  | [] => pat.isEmpty
  | c :: cs => startsWithChars pat (c :: cs) || occursIn pat cs

/-- JavaScript `s.includes(pat)`. -/
def containsSub (s pat : String) : Bool :=
  occursIn pat.data s.data

/-- JavaScript `s.toLowerCase()` (ASCII). -/
def lowerStr (s : String) : String :=
  String.mk (s.data.map Char.toLower)

/-- Numeric value of a list of decimal digit characters. -/
def digitsVal (cs : List Char) : Nat :=
  cs.foldl (fun a c => a * 10 + (c.toNat - '0'.toNat)) 0

/-- JavaScript `s.replace(/[^0-9.-]+/g, '')`: keep only digits, dots and
minus signs. -/
def stripNum (s : String) : String :=
  String.mk (s.data.filter (fun c => c.isDigit || c == '.' || c == '-'))

/-- JavaScript `parseFloat` on a string drawn from the alphabet left by
`stripNum`: an optional leading minus sign followed by an integer part
and an optional fractional part, reading the longest valid prefix;
`none` models `NaN` (no digits at all).  The decimal is represented
exactly. -/
def parseFloatOpt (s : String) : Option JNum :=
  let cs := s.data
  let sgn : Int := match cs with
    | '-' :: _ => -1
    | _ => 1
  let rest : List Char := match cs with
    | '-' :: t => t
    | t => t
  let intPart := rest.takeWhile Char.isDigit
  let rest2 := rest.dropWhile Char.isDigit
  let fracPart : List Char := match rest2 with
    | '.' :: t => t.takeWhile Char.isDigit
    | _ => []
  if intPart.isEmpty && fracPart.isEmpty then none
  else some ⟨sgn * ((digitsVal intPart : Int) * (10 : Int) ^ fracPart.length
      + (digitsVal fracPart : Int)), (10 : Int) ^ fracPart.length⟩

/-- Gregorian leap year. -/
def isLeap (y : Nat) : Bool :=
  y % 4 == 0 && (y % 100 != 0 || y % 400 == 0)

/-- Number of days in a month. -/
def daysInMonth (y m : Nat) : Nat :=
  if m = 2 then (if isLeap y then 29 else 28)
  else if m = 4 ∨ m = 6 ∨ m = 9 ∨ m = 11 then 30
  else 31

/-- Days from 1970-01-01 to the given civil date (Hinnant's algorithm). -/
def daysFromCivil (y m d : Nat) : Int :=
  let y' : Int := if m ≤ 2 then (y : Int) - 1 else (y : Int)
  let era : Int := Int.ediv y' 400
  let yoe : Int := y' - era * 400
  let mp : Int := Int.emod ((m : Int) + 9) 12
  let doy : Int := Int.ediv (153 * mp + 2) 5 + (d : Int) - 1
  let doe : Int := yoe * 365 + Int.ediv yoe 4 - Int.ediv yoe 100 + doy
  era * 146097 + doe - 719468

/-- JavaScript `new Date(s).getTime()` for ISO `YYYY-MM-DD` strings
(parsed as UTC midnight); any other string is modelled as an invalid date
(`none`, playing the role of `NaN`). -/
def parseDate (s : String) : Option Int :=
  match s.data with
  | [y1, y2, y3, y4, h1, m1, m2, h2, d1, d2] =>
    if y1.isDigit && y2.isDigit && y3.isDigit && y4.isDigit
        && h1 == '-' && m1.isDigit && m2.isDigit
        && h2 == '-' && d1.isDigit && d2.isDigit then
      let y := digitsVal [y1, y2, y3, y4]
      let m := digitsVal [m1, m2]
      let d := digitsVal [d1, d2]
      if 1 ≤ m ∧ m ≤ 12 ∧ 1 ≤ d ∧ d ≤ daysInMonth y m then
        some (daysFromCivil y m d * 86400000)
      else none
    else none
  | _ => none

/-- `Math.ceil(a / b)` for integer `a` and positive integer `b`. -/
def jsCeilDiv (a b : Int) : Int :=
  -(Int.ediv (-a) b)

/-- JavaScript `x || 0` for a plain number (`NaN` and `0` are falsy). -/
def ratOrZero (v : Option JNum) : JNum :=
  match v with
  | some q => q
  | none => JNum.zero

/-- JavaScript `x || 0` for a nullable number field. -/
def numOrZero (v : Option (Option JNum)) : JNum :=
  match v with
  | some (some q) => q
  | _ => JNum.zero

/-- JavaScript `x || 0` for a nullable integer. -/
def intOrZero (v : Option Int) : Int :=
  match v with
  | some d => d
  | none => 0

/-- A raw row of the new-client CSV, one `Option String` per column
actually read by the code (`Col` fields are the bracketed column names,
`Field` fields the dot-access synonyms). -/
structure Client where
  memberIDCol : Option String
  memberIDField : Option String
  idField : Option String
  firstNameCol : Option String
  firstNameField : Option String
  lastNameCol : Option String
  lastNameField : Option String
  emailCol : Option String
  emailField : Option String
  firstVisitCol : Option String
  firstVisitField : Option String
  dateField : Option String
  locationCol : Option String
  locationField : Option String
  membershipCol : Option String
  membershipField : Option String
  teacherCol : Option String
  teacherField : Option String
deriving DecidableEq

/-- A raw row of the sales CSV, one `Option String` per column read by the
code. -/
structure Sale where
  customerEmailCol : Option String
  payingEmailCol : Option String
  emailField : Option String
  memberIDCol : Option String
  memberIDField : Option String
  dateCol : Option String
  dateField : Option String
  saleValueCol : Option String
  valueField : Option String
  categoryCol : Option String
  categoryField : Option String
  itemCol : Option String
  itemField : Option String
  productField : Option String
  refundedCol : Option String
deriving DecidableEq

/-- Conversion status of a processed client. -/
inductive ConvStatus where
  | converted
  | not_converted
deriving DecidableEq

/-- The `ProcessedClient` record produced per client row. -/
structure ProcessedClient where
  memberID : String
  firstName : String
  lastName : String
  email : String
  firstVisitDate : String
  firstVisitLocation : String
  membershipUsed : String
  teacher : String
  firstPurchaseDate : Option String
  firstPurchaseProduct : Option String
  firstPurchaseValue : Option (Option JNum)
  conversionStatus : ConvStatus
  conversionDetails : String
  daysToConversion : Option Int
  validationErrors : List String
deriving DecidableEq

/-- `client['Member ID'] || client.memberID || client.id || 'client_N'`. -/
def clientMemberID (index : Nat) (c : Client) : String :=
  orS c.memberIDCol (orS c.memberIDField (orS c.idField ("client_" ++ toString index)))

/-- `client['First name'] || client.firstName || ''`. -/
def clientFirstName (c : Client) : String :=
  orS c.firstNameCol (orS c.firstNameField "")

/-- `client['Last name'] || client.lastName || ''`. -/
def clientLastName (c : Client) : String :=
  orS c.lastNameCol (orS c.lastNameField "")

/-- `client['Email'] || client.email || ''`. -/
def clientEmail (c : Client) : String :=
  orS c.emailCol (orS c.emailField "")

/-- `client['First visit at'] || client.firstVisitAt || client.date || ''`. -/
def clientFirstVisit (c : Client) : String :=
  orS c.firstVisitCol (orS c.firstVisitField (orS c.dateField ""))

/-- `client['Teacher'] || client.teacher || 'Unknown'`. -/
def clientTeacher (c : Client) : String :=
  orS c.teacherCol (orS c.teacherField "Unknown")

/-- The skip test `client.Teacher && client.Teacher.toLowerCase().includes('all trainers')`. -/
def isAllTrainersRow (c : Client) : Bool :=
  match c.teacherCol with
  | some t => !(t = "") && containsSub (lowerStr t) "all trainers"
  | none => false

/-- The email side of the candidate match: any of the three sale email
columns strictly equal to the extracted client email. -/
def emailMatch (email : String) (s : Sale) : Bool :=
  decide (s.customerEmailCol = some email)
    || decide (s.payingEmailCol = some email)
    || decide (s.emailField = some email)

/-- The member-ID side of the candidate match. -/
def memberIDMatch (mid : String) (s : Sale) : Bool :=
  decide (s.memberIDCol = some mid) || decide (s.memberIDField = some mid)

/-- `matchingSales`: sales matching the client by email or by member ID. -/
def matchingSales (sales : List Sale) (email mid : String) : List Sale :=
  sales.filter (fun s => emailMatch email s || memberIDMatch mid s)

/-- `sale['Date'] || sale.date || ''`. -/
def saleDateStr (s : Sale) : String :=
  orS s.dateCol (orS s.dateField "")

/-- The parsed sale date. -/
def saleDate (s : Sale) : Option Int :=
  parseDate (saleDateStr s)

/-- `parseFloat(String(sale['Sale value'] || sale.value || '0').replace(...))`. -/
def saleValue (s : Sale) : Option JNum :=
  parseFloatOpt (stripNum (orS s.saleValueCol (orS s.valueField "0")))

/-- `(sale['Category'] || sale.category || '').toLowerCase()`. -/
def saleCategory (s : Sale) : String :=
  lowerStr (orS s.categoryCol (orS s.categoryField ""))

/-- `sale['Item'] || sale.item || sale.product || ''` (not lowercased). -/
def saleProductStr (s : Sale) : String :=
  orS s.itemCol (orS s.itemField (orS s.productField ""))

/-- The lowercased product label used by the filters. -/
def saleProduct (s : Sale) : String :=
  lowerStr (saleProductStr s)

/-- The `validSales` filter predicate: positive value, no "2 for 1"
product, non-retail category, parseable date on or after the first visit,
not refunded. -/
def validSale (visit : Option Int) (s : Sale) : Bool :=
  (match saleValue s with
    | some q => decide (JNum.Lt JNum.zero q)
    | none => false)
  && !(containsSub (saleProduct s) "2 for 1")
  && !(decide (saleCategory s = "retail"))
  && (match saleDate s, visit with
    | some sd, some vd => decide (vd ≤ sd)
    | _, _ => false)
  && !(decide (s.refundedCol = some "YES"))

/-- `validSales`: the candidates passing `validSale`. -/
def validSales (visit : Option Int) (cands : List Sale) : List Sale :=
  cands.filter (validSale visit)

/-- Whether the parsed sale value is strictly negative (`saleValue < 0`;
false for `NaN`). -/
def negValue (s : Sale) : Bool :=
  match saleValue s with
  | some q => decide (JNum.Lt q JNum.zero)
  | none => false

/-- The validation errors pushed while filtering: one
"Negative sale value detected" per candidate with negative value. -/
def negValueErrors (cands : List Sale) : List String :=
  (cands.filter negValue).map (fun _ => "Negative sale value detected")

/-- The errors recorded before the sales filter runs: missing email,
missing visit date, missing name, unparseable visit date. -/
def baseErrors (email firstVisit firstName lastName : String) : List String :=
  (if email = "" then ["Missing email address"] else [])
    ++ (if firstVisit = "" then ["Missing first visit date"] else [])
    ++ (if firstName = "" ∧ lastName = "" then ["Missing client name"] else [])
    ++ (if firstVisit ≠ "" ∧ parseDate firstVisit = none
        then ["Invalid first visit date format"] else [])

/-- The sort key used by the comparator `dateA.getTime() - dateB.getTime()`. -/
def saleKey (s : Sale) : Int :=
  (saleDate s).getD 0

/-- Stable insertion of a sale into a list sorted ascending by key:
`x` goes before the first element of key not smaller than its own. -/
def ordInsert (key : Sale → Int) (x : Sale) : List Sale → List Sale
  | [] => [x]
  | y :: ys => if key x ≤ key y then x :: y :: ys else y :: ordInsert key x ys

/-- Stable ascending sort by key, the behaviour of the JavaScript
`Array.prototype.sort` call (which is guaranteed stable) with the
comparator `dateA - dateB`. -/
def stableSortByKey (key : Sale → Int) : List Sale → List Sale
  | [] => []
  | x :: xs => ordInsert key x (stableSortByKey key xs)

/-- The leftmost element of minimal key, computed by a left-to-right scan
that replaces the current best only on a strictly smaller key.  This is
the element the stable sort puts first. -/
def leftMin (key : Sale → Int) : List Sale → Option Sale
  | [] => none
  | x :: xs =>
    match leftMin key xs with
    | none => some x
    | some m => if key x ≤ key m then some x else some m

/-- Per-candidate non-conversion reasons collected by the explanation
scan, in the code's order of checks. -/
def saleReasons (visit : Option Int) (s : Sale) : List String :=
  (if (match saleValue s with
      | some q => decide (JNum.Le q JNum.zero)
      | none => false) = true
    then ["Zero or negative sale value"] else [])
  ++ (if containsSub (saleProduct s) "2 for 1" = true
      then ["Excluded product (2 For 1)"] else [])
  ++ (if saleCategory s = "retail"
      then ["Retail category excluded"] else [])
  ++ (if (match saleDate s, visit with
        | some sd, some vd => decide (sd < vd)
        | _, _ => false) = true
      then ["Purchase before first visit"] else [])
  ++ (if s.refundedCol = some "YES"
      then ["Purchase was refunded"] else [])

/-- All reasons over all candidates (one sub-list per candidate, in input
order, duplicates kept). -/
def conversionReasons (visit : Option Int) (cands : List Sale) : List String :=
  cands.flatMap (saleReasons visit)

/-- Modelled from the spec: `safeFormatCurrency` lives in `src/lib/utils`,
which is outside the specified core ("currency/percentage formatting for
display is also external"); it is modelled as some fixed deterministic
rendering of the amount. -/
def safeFormatCurrency (q : JNum) : String :=
  toString q.num ++ "/" ++ toString q.den

/-- The candidates matched to a given client row. -/
def clientMatching (sales : List Sale) (index : Nat) (c : Client) : List Sale :=
  matchingSales sales (clientEmail c) (clientMemberID index c)

/-- The valid candidates of a given client row. -/
def clientValid (sales : List Sale) (index : Nat) (c : Client) : List Sale :=
  validSales (parseDate (clientFirstVisit c)) (clientMatching sales index c)

/-- Processing of one client row: extraction, validation, candidate
matching, validity filtering, classification and explanation. -/
def processClient (sales : List Sale) (index : Nat) (c : Client) : ProcessedClient :=
  let memberID := clientMemberID index c
  let firstName := clientFirstName c
  let lastName := clientLastName c
  let email := clientEmail c
  let firstVisitDate := clientFirstVisit c
  let firstVisitLocation := orS c.locationCol (orS c.locationField "")
  let membershipUsed := orS c.membershipCol (orS c.membershipField "")
  let teacher := clientTeacher c
  let visit := parseDate firstVisitDate
  let matching := clientMatching sales index c
  let valid := clientValid sales index c
  let errors := baseErrors email firstVisitDate firstName lastName ++ negValueErrors matching
  match stableSortByKey saleKey valid with
  | f :: _ =>
    let days : Option Int :=
      match saleDate f, visit with
      | some pd, some vd => some (jsCeilDiv (pd - vd) 86400000)
      | _, _ => none
    { memberID := memberID, firstName := firstName, lastName := lastName,
      email := email, firstVisitDate := firstVisitDate,
      firstVisitLocation := firstVisitLocation, membershipUsed := membershipUsed,
      teacher := teacher,
      firstPurchaseDate := some (saleDateStr f),
      firstPurchaseProduct := some (saleProductStr f),
      firstPurchaseValue := some (saleValue f),
      conversionStatus := ConvStatus.converted,
      conversionDetails := "Converted after " ++ toString (intOrZero days)
        ++ " days with \"" ++ saleProductStr f ++ "\" for "
        ++ safeFormatCurrency (ratOrZero (saleValue f)),
      daysToConversion := days,
      validationErrors := errors }
  | [] =>
    let details :=
      if matching.isEmpty then "No purchase records found for this client"
      else
        let rs := conversionReasons visit matching
        if rs.isEmpty then "Has purchases but none meet conversion criteria"
        else "Not converted: " ++ String.intercalate ", " rs
    { memberID := memberID, firstName := firstName, lastName := lastName,
      email := email, firstVisitDate := firstVisitDate,
      firstVisitLocation := firstVisitLocation, membershipUsed := membershipUsed,
      teacher := teacher,
      firstPurchaseDate := none,
      firstPurchaseProduct := none,
      firstPurchaseValue := none,
      conversionStatus := ConvStatus.not_converted,
      conversionDetails := details,
      daysToConversion := none,
      validationErrors := errors }

/-- The `forEach` over the client rows with the original index, skipping
"All Trainers" rows. -/
def processedDataAux (sales : List Sale) (i : Nat) : List Client → List ProcessedClient
  | [] => []
  | c :: cs =>
    if isAllTrainersRow c then processedDataAux sales (i + 1) cs
    else processClient sales i c :: processedDataAux sales (i + 1) cs

/-- `processedData`: one `ProcessedClient` per kept client row. -/
def processedData (sales : List Sale) (clients : List Client) : List ProcessedClient :=
  processedDataAux sales 0 clients

/-- Whether a processed client is converted. -/
def isConverted (p : ProcessedClient) : Bool :=
  match p.conversionStatus with
  | ConvStatus.converted => true
  | ConvStatus.not_converted => false

/-- The summary statistics block. -/
structure SummaryStats where
  total : Nat
  converted : Nat
  notConverted : Nat
  conversionRate : JNum
  totalRevenue : JNum
  avgDaysToConversion : JNum
  dataQualityIssues : Nat
deriving DecidableEq

/-- `summaryStats` as computed from the processed data. -/
def summaryStats (data : List ProcessedClient) : SummaryStats :=
  let total := data.length
  let conv := (data.filter isConverted).length
  { total := total,
    converted := conv,
    notConverted := total - conv,
    conversionRate :=
      if total > 0 then ((JNum.ofNat conv).div (JNum.ofNat total)).mul (JNum.ofNat 100)
      else JNum.zero,
    totalRevenue :=
      data.foldl (fun s c => s.add (numOrZero c.firstPurchaseValue)) JNum.zero,
    avgDaysToConversion :=
      let arr := data.filter (fun c => c.daysToConversion.isSome)
      arr.foldl
        (fun s c =>
          s.add ((JNum.ofInt (intOrZero c.daysToConversion)).div (JNum.ofNat arr.length)))
        JNum.zero,
    dataQualityIssues := (data.filter (fun c => !c.validationErrors.isEmpty)).length }

/-- One aggregated teacher row consumed by the location rollup. -/
structure TeacherRow where
  location : String
  teacherName : String
  newClients : JNum
  retainedClients : JNum
  convertedClients : JNum
  totalRevenue : JNum
deriving DecidableEq

/-- Accumulator of the `locationStats` reduce. -/
structure LocAcc where
  newClients : JNum
  retainedClients : JNum
  convertedClients : JNum
  revenue : JNum
  teachers : List String
deriving DecidableEq

/-- `Set.prototype.add` on the teacher name set, keeping insertion order. -/
def addTeacher (ts : List String) (t : String) : List String :=
  if t ∈ ts then ts else ts ++ [t]

/-- Adding one row into a location bucket. -/
def bumpLoc (item : TeacherRow) (a : LocAcc) : LocAcc :=
  { newClients := a.newClients.add item.newClients,
    retainedClients := a.retainedClients.add item.retainedClients,
    convertedClients := a.convertedClients.add item.convertedClients,
    revenue := a.revenue.add item.totalRevenue,
    teachers := addTeacher a.teachers item.teacherName }

/-- One step of the `locationStats` reduce over the keyed accumulator
(a fresh zero bucket is created on first sight of a location). -/
def insertStat : List (String × LocAcc) → TeacherRow → List (String × LocAcc)
  | [], item =>
    [(item.location, bumpLoc item ⟨JNum.zero, JNum.zero, JNum.zero, JNum.zero, []⟩)]
  | (k, a) :: rest, item =>
    if k = item.location then (k, bumpLoc item a) :: rest
    else (k, a) :: insertStat rest item

/-- The `locationStats` accumulator after the reduce. -/
def locationStats (data : List TeacherRow) : List (String × LocAcc) :=
  data.foldl insertStat []

/-- A location bucket with its derived rate fields. -/
structure LocRates where
  location : String
  newClients : JNum
  retainedClients : JNum
  convertedClients : JNum
  revenue : JNum
  retentionRate : JNum
  conversionRate : JNum
  teacherCount : Nat
deriving DecidableEq

/-- The mapped per-location records with `retentionRate` and
`conversionRate`, guarded against a zero denominator. -/
def locationRates (data : List TeacherRow) : List LocRates :=
  (locationStats data).map (fun p =>
    { location := p.1,
      newClients := p.2.newClients,
      retainedClients := p.2.retainedClients,
      convertedClients := p.2.convertedClients,
      revenue := p.2.revenue,
      retentionRate :=
        if JNum.Lt JNum.zero p.2.newClients
          then (p.2.retainedClients.div p.2.newClients).mul (JNum.ofNat 100)
          else JNum.zero,
      conversionRate :=
        if JNum.Lt JNum.zero p.2.newClients
          then (p.2.convertedClients.div p.2.newClients).mul (JNum.ofNat 100)
          else JNum.zero,
      teacherCount := p.2.teachers.length })

/-- The all-`none` client row, base for concrete test rows. -/
def blankClient : Client :=
  ⟨none, none, none, none, none, none, none, none, none,
    none, none, none, none, none, none, none, none, none⟩

/-- The all-`none` sale row, base for concrete test rows. -/
def blankSale : Sale :=
  ⟨none, none, none, none, none, none, none, none, none,
    none, none, none, none, none, none⟩

/-- Scenario A client: first visit 2024-01-01. -/
def clientA : Client :=
  { blankClient with
    emailCol := some "e@x.com", firstVisitCol := some "2024-01-01",
    firstNameCol := some "Eva", teacherCol := some "T1" }

/-- A client row whose teacher label contains, but does not equal, the
aggregate sentinel. -/
def clientAllT : Client :=
  { blankClient with
    teacherCol := some "All Trainers (combined)",
    emailCol := some "x@y.com", firstVisitCol := some "2024-01-01" }

/-- Scenario A sale: same email, 2024-01-05, value 1000, category class. -/
def saleA : Sale :=
  { blankSale with
    customerEmailCol := some "e@x.com", dateCol := some "2024-01-05",
    saleValueCol := some "1000", categoryCol := some "class",
    itemCol := some "Annual Pass" }

/-- A retail-category variant of the scenario-A sale. -/
def saleRetail : Sale :=
  { saleA with categoryCol := some "Retail" }

/-- A negative-value variant of the scenario-A sale (scenario D). -/
def saleNeg : Sale :=
  { saleA with saleValueCol := some "-50" }

/-- A client row whose first-visit date is present but unparseable. -/
def clientBadDate : Client :=
  { blankClient with
    emailCol := some "b@x.com", firstVisitCol := some "not-a-date",
    teacherCol := some "T1", firstNameCol := some "Bo" }

/-- A teacher aggregate row with zero counts, for the zero-denominator
bucket. -/
def rowZero : TeacherRow :=
  ⟨"Loc1", "T1", JNum.zero, JNum.zero, JNum.zero, JNum.zero⟩

/-- The location bucket produced from `rowZero`. -/
def rowZeroRates : LocRates :=
  ⟨"Loc1", JNum.zero, JNum.zero, JNum.zero, JNum.zero, JNum.zero, JNum.zero, 1⟩

/-- Whitespace trimming at both ends. -/
def trimWS (s : String) : String :=
  String.mk
    (((s.data.dropWhile Char.isWhitespace).reverse.dropWhile
        Char.isWhitespace).reverse)

/-- Modelled from the spec: the email normalization the spec attributes to
the matching key ("`email` (case/whitespace-normalized) is the primary
matching key") — lower-cased and trimmed.  The matching code itself never
normalizes; this definition exists only to state how candidacy under the
spec's wording differs from the code's raw comparison. -/
def specNormalizeEmail (s : String) : String :=
  lowerStr (trimWS s)

/-- A client row whose email differs from the sale's only in letter
case. -/
def clientUpper : Client :=
  { blankClient with
    emailCol := some "A@X.com", firstVisitCol := some "2024-01-01",
    teacherCol := some "T1" }

/-- A sale whose email is the lower-cased form of `clientUpper`'s. -/
def saleLower : Sale :=
  { blankSale with
    customerEmailCol := some "a@x.com", dateCol := some "2024-01-05",
    saleValueCol := some "1000", categoryCol := some "class" }

/- ------------------------------------------------------------------ -/
/- Helper lemmas.                                                     -/
/- ------------------------------------------------------------------ -/

theorem JNum.add_zero (a : JNum) : a.add JNum.zero = a := by
  cases a
  simp [JNum.add, JNum.zero]

theorem filter_eq_nil_iff_all {α : Type} (p : α → Bool) (l : List α) :
    l.filter p = [] ↔ ∀ x ∈ l, p x = false := by
  rw [List.filter_eq_nil_iff]
  simp

theorem mem_ordInsert {key : Sale → Int} {a x : Sale} {l : List Sale} :
    x ∈ ordInsert key a l ↔ x = a ∨ x ∈ l := by
  induction l with
  | nil => simp [ordInsert]
  | cons y ys ih =>
    simp only [ordInsert]
    split
    · simp [List.mem_cons]
    · simp [List.mem_cons, ih]
      tauto

theorem mem_stableSortByKey {key : Sale → Int} {x : Sale} {l : List Sale} :
    x ∈ stableSortByKey key l ↔ x ∈ l := by
  induction l with
  | nil => simp [stableSortByKey]
  | cons y ys ih => simp [stableSortByKey, mem_ordInsert, ih]

theorem ordInsert_ne_nil {key : Sale → Int} {a : Sale} {l : List Sale} :
    ordInsert key a l ≠ [] := by
  cases l with
  | nil => simp [ordInsert]
  | cons y ys =>
    simp only [ordInsert]
    split <;> simp

theorem stableSortByKey_eq_nil {key : Sale → Int} {l : List Sale} :
    stableSortByKey key l = [] ↔ l = [] := by
  cases l with
  | nil => simp [stableSortByKey]
  | cons x xs => simp [stableSortByKey, ordInsert_ne_nil]

theorem leftMin_eq_none {key : Sale → Int} {l : List Sale} :
    leftMin key l = none ↔ l = [] := by
  cases l with
  | nil => simp [leftMin]
  | cons x xs =>
    refine iff_of_false ?_ (by simp)
    intro h
    simp only [leftMin] at h
    cases hm : leftMin key xs with
    | none =>
      simp only [hm] at h
      exact Option.noConfusion h
    | some m =>
      simp only [hm] at h
      by_cases hk : key x ≤ key m <;> simp [hk] at h

theorem stableSortByKey_head_eq_leftMin (key : Sale → Int) (l : List Sale) :
    (stableSortByKey key l).head? = leftMin key l := by
  induction l with
  | nil => rfl
  | cons x xs ih =>
    simp only [stableSortByKey, leftMin]
    cases h : stableSortByKey key xs with
    | nil =>
      have hxs : xs = [] := stableSortByKey_eq_nil.mp h
      subst hxs
      simp [leftMin, ordInsert]
    | cons y ys =>
      rw [h] at ih
      simp only [List.head?_cons] at ih
      rw [← ih]
      simp only [ordInsert]
      by_cases hk : key x ≤ key y <;> simp [hk]

theorem leftMin_mem {key : Sale → Int} {l : List Sale} {m : Sale}
    (h : leftMin key l = some m) : m ∈ l := by
  induction l generalizing m with
  | nil => simp [leftMin] at h
  | cons x xs ih =>
    simp only [leftMin] at h
    cases hm : leftMin key xs with
    | none =>
      simp only [hm, Option.some.injEq] at h
      subst h
      exact List.mem_cons_self _ _
    | some m' =>
      simp only [hm] at h
      by_cases hk : key x ≤ key m'
      · rw [if_pos hk, Option.some.injEq] at h
        subst h
        exact List.mem_cons_self _ _
      · rw [if_neg hk, Option.some.injEq] at h
        subst h
        exact List.mem_cons_of_mem _ (ih hm)

theorem leftMin_le {key : Sale → Int} {l : List Sale} {m : Sale}
    (h : leftMin key l = some m) : ∀ x ∈ l, key m ≤ key x := by
  induction l generalizing m with
  | nil => simp [leftMin] at h
  | cons x xs ih =>
    simp only [leftMin] at h
    cases hm : leftMin key xs with
    | none =>
      simp only [hm, Option.some.injEq] at h
      subst h
      have hxs : xs = [] := leftMin_eq_none.mp hm
      subst hxs
      simp
    | some m' =>
      simp only [hm] at h
      by_cases hk : key x ≤ key m'
      · rw [if_pos hk, Option.some.injEq] at h
        subst h
        intro y hy
        rcases List.mem_cons.mp hy with rfl | hy'
        · exact le_refl _
        · exact le_trans hk (ih hm y hy')
      · rw [if_neg hk, Option.some.injEq] at h
        subst h
        intro y hy
        rcases List.mem_cons.mp hy with rfl | hy'
        · exact le_of_lt (lt_of_not_le hk)
        · exact ih hm y hy'

theorem leftMin_leftmost {key : Sale → Int} {l : List Sale} {m : Sale}
    (h : leftMin key l = some m) :
    ∃ p q, l = p ++ m :: q ∧ ∀ x ∈ p, key m < key x := by
  induction l generalizing m with
  | nil => simp [leftMin] at h
  | cons x xs ih =>
    simp only [leftMin] at h
    cases hm : leftMin key xs with
    | none =>
      simp only [hm, Option.some.injEq] at h
      subst h
      exact ⟨[], xs, rfl, by simp⟩
    | some m' =>
      simp only [hm] at h
      by_cases hk : key x ≤ key m'
      · rw [if_pos hk, Option.some.injEq] at h
        subst h
        exact ⟨[], xs, rfl, by simp⟩
      · rw [if_neg hk, Option.some.injEq] at h
        subst h
        obtain ⟨p, q, heq, hlt⟩ := ih hm
        refine ⟨x :: p, q, by rw [heq]; rfl, ?_⟩
        intro y hy
        rcases List.mem_cons.mp hy with rfl | hy'
        · exact lt_of_not_le hk
        · exact hlt y hy'

theorem validSale_none (s : Sale) : validSale none s = false := by
  simp only [validSale]
  cases saleDate s <;> simp

theorem validSale_iff {vd : Int} {s : Sale} :
    validSale (some vd) s = true ↔
      ((∃ q, saleValue s = some q ∧ JNum.Lt JNum.zero q)
        ∧ containsSub (saleProduct s) "2 for 1" = false
        ∧ saleCategory s ≠ "retail"
        ∧ (∃ sd, saleDate s = some sd ∧ vd ≤ sd)
        ∧ s.refundedCol ≠ some "YES") := by
  unfold validSale
  cases hq : saleValue s with
  | none => simp
  | some q =>
    cases hsd : saleDate s with
    | none => simp
    | some sd => simp [Bool.and_eq_true, and_assoc]

theorem validSale_dates {v : Option Int} {s : Sale} (h : validSale v s = true) :
    ∃ sd vd, saleDate s = some sd ∧ v = some vd ∧ vd ≤ sd := by
  unfold validSale at h
  cases hsd : saleDate s with
  | none =>
    rw [hsd] at h
    cases saleValue s <;> cases v <;> simp at h
  | some sd =>
    rw [hsd] at h
    cases v with
    | none => cases saleValue s <;> simp at h
    | some vd =>
      refine ⟨sd, vd, rfl, rfl, ?_⟩
      cases saleValue s <;> simp [Bool.and_eq_true] at h <;> tauto

theorem jsCeilDiv_nonneg {a b : Int} (ha : 0 ≤ a) (hb : 0 < b) :
    0 ≤ jsCeilDiv a b := by
  unfold jsCeilDiv
  have h1 : Int.ediv (-a) b ≤ Int.ediv 0 b := Int.ediv_le_ediv hb (by omega)
  have h2 : Int.ediv 0 b = 0 := Int.zero_ediv b
  rw [h2] at h1
  omega

theorem processClient_errors (sales : List Sale) (i : Nat) (c : Client) :
    (processClient sales i c).validationErrors =
      baseErrors (clientEmail c) (clientFirstVisit c) (clientFirstName c) (clientLastName c)
        ++ negValueErrors (clientMatching sales i c) := by
  cases h : stableSortByKey saleKey (clientValid sales i c) with
  | nil => simp [processClient, h]
  | cons f rest => simp [processClient, h]

theorem processClient_conv (sales : List Sale) (i : Nat) (c : Client) (f : Sale)
    (rest : List Sale)
    (h : stableSortByKey saleKey (clientValid sales i c) = f :: rest) :
    (processClient sales i c).conversionStatus = ConvStatus.converted
    ∧ (processClient sales i c).firstPurchaseDate = some (saleDateStr f)
    ∧ (processClient sales i c).firstPurchaseProduct = some (saleProductStr f)
    ∧ (processClient sales i c).firstPurchaseValue = some (saleValue f)
    ∧ (processClient sales i c).daysToConversion =
        (match saleDate f, parseDate (clientFirstVisit c) with
          | some pd, some vd => some (jsCeilDiv (pd - vd) 86400000)
          | _, _ => none) := by
  simp [processClient, h]

theorem processClient_nil (sales : List Sale) (i : Nat) (c : Client)
    (h : stableSortByKey saleKey (clientValid sales i c) = []) :
    (processClient sales i c).conversionStatus = ConvStatus.not_converted
    ∧ (processClient sales i c).firstPurchaseDate = none
    ∧ (processClient sales i c).firstPurchaseProduct = none
    ∧ (processClient sales i c).firstPurchaseValue = none
    ∧ (processClient sales i c).daysToConversion = none
    ∧ (processClient sales i c).conversionDetails =
        (if (clientMatching sales i c).isEmpty
          then "No purchase records found for this client"
          else if (conversionReasons (parseDate (clientFirstVisit c))
              (clientMatching sales i c)).isEmpty
            then "Has purchases but none meet conversion criteria"
            else "Not converted: " ++ String.intercalate ", "
              (conversionReasons (parseDate (clientFirstVisit c))
                (clientMatching sales i c))) := by
  simp [processClient, h]

theorem processedDataAux_cons (sales : List Sale) (i : Nat) (c : Client)
    (cs : List Client) :
    processedDataAux sales i (c :: cs) =
      if isAllTrainersRow c then processedDataAux sales (i + 1) cs
      else processClient sales i c :: processedDataAux sales (i + 1) cs := rfl

theorem processedDataAux_append (sales : List Sale) (i : Nat)
    (pre cs : List Client) :
    processedDataAux sales i (pre ++ cs) =
      processedDataAux sales i pre ++ processedDataAux sales (i + pre.length) cs := by
  induction pre generalizing i with
  | nil => simp [processedDataAux]
  | cons c cs' ih =>
    have hn : i + 1 + cs'.length = i + (cs'.length + 1) := by omega
    rw [List.cons_append, processedDataAux_cons, processedDataAux_cons,
      ih, hn, List.length_cons]
    by_cases h : isAllTrainersRow c = true
    · rw [if_pos h, if_pos h]
    · rw [if_neg h, if_neg h]
      simp

theorem processedDataAux_enum (sales : List Sale) (i : Nat) (cs : List Client) :
    processedDataAux sales i cs =
      ((List.enumFrom i cs).filter (fun p => !(isAllTrainersRow p.2))).map
        (fun p => processClient sales p.1 p.2) := by
  induction cs generalizing i with
  | nil => simp [processedDataAux]
  | cons c cs' ih =>
    simp only [processedDataAux, List.enumFrom, List.filter_cons]
    by_cases h : isAllTrainersRow c = true
    · simp [h, ih]
    · simp [h, ih]

theorem mem_processedDataAux {sales : List Sale} {i : Nat} {cs : List Client}
    {p : ProcessedClient} (h : p ∈ processedDataAux sales i cs) :
    ∃ j c, c ∈ cs ∧ p = processClient sales j c := by
  induction cs generalizing i with
  | nil => simp [processedDataAux] at h
  | cons c cs' ih =>
    simp only [processedDataAux] at h
    by_cases hc : isAllTrainersRow c = true
    · rw [if_pos hc] at h
      obtain ⟨j, c', hm, hp⟩ := ih h
      exact ⟨j, c', List.mem_cons_of_mem _ hm, hp⟩
    · rw [if_neg hc] at h
      rcases List.mem_cons.mp h with rfl | h'
      · exact ⟨i, c, List.mem_cons_self _ _, rfl⟩
      · obtain ⟨j, c', hm, hp⟩ := ih h'
        exact ⟨j, c', List.mem_cons_of_mem _ hm, hp⟩

theorem processClient_notconv_val {sales : List Sale} {j : Nat} {c : Client}
    (h : (processClient sales j c).conversionStatus = ConvStatus.not_converted) :
    (processClient sales j c).firstPurchaseValue = none := by
  cases hs : stableSortByKey saleKey (clientValid sales j c) with
  | nil => exact (processClient_nil sales j c hs).2.2.2.1
  | cons f rest =>
    have hst := (processClient_conv sales j c f rest hs).1
    rw [hst] at h
    exact absurd h (by simp)

theorem foldl_revenue_filter (l : List ProcessedClient)
    (hinv : ∀ p ∈ l,
      p.conversionStatus = ConvStatus.not_converted → p.firstPurchaseValue = none) :
    ∀ acc : JNum,
      l.foldl (fun s c => s.add (numOrZero c.firstPurchaseValue)) acc
        = (l.filter isConverted).foldl
            (fun s c => s.add (numOrZero c.firstPurchaseValue)) acc := by
  induction l with
  | nil => intro acc; rfl
  | cons c l' ih =>
    intro acc
    have ih' := ih (fun p hp => hinv p (List.mem_cons_of_mem _ hp))
    by_cases hc : isConverted c = true
    · simp only [List.foldl_cons, List.filter_cons, hc, if_pos]
      exact ih' _
    · have hst : c.conversionStatus = ConvStatus.not_converted := by
        cases hs : c.conversionStatus
        · exact absurd (by simp [isConverted, hs]) hc
        · rfl
      have hv := hinv c (List.mem_cons_self _ _) hst
      simp only [List.foldl_cons, List.filter_cons, hc, hv, numOrZero]
      rw [JNum.add_zero]
      exact ih' _

/- ------------------------------------------------------------------ -/
/- Claims.                                                             -/
/- ------------------------------------------------------------------ -/

/-- C1 (amended): a purchase record is a candidate for a client if and
only if it is one of the input sales and one of its email columns equals
the client's extracted email by raw, case-sensitive string equality (no
normalization is applied) or its member ID equals the client's member ID
— either key alone suffices (the match is a disjunction, not a
conjunction). -/
theorem claim1_candidate_iff (sales : List Sale) (email mid : String) (s : Sale) :
    s ∈ matchingSales sales email mid ↔
      (s ∈ sales ∧ (emailMatch email s = true ∨ memberIDMatch mid s = true)) := by
  simp [matchingSales, List.mem_filter, Bool.or_eq_true]

/-- C1 counterexample: a client email "A@X.com" and a sale email
"a@x.com" are equal after the spec's normalization, and no member ID
matches, yet the sale is not a candidate — the code compares the raw
strings, refuting candidacy-iff-normalized-email-equality as stated. -/
theorem claim1_counterexample :
    specNormalizeEmail (clientEmail clientUpper) = "a@x.com"
    ∧ saleLower.customerEmailCol = some "a@x.com"
    ∧ specNormalizeEmail (clientEmail clientUpper)
        = specNormalizeEmail (orS saleLower.customerEmailCol "")
    ∧ memberIDMatch (clientMemberID 0 clientUpper) saleLower = false
    ∧ matchingSales [saleLower] (clientEmail clientUpper)
        (clientMemberID 0 clientUpper) = [] := by
  refine ⟨by decide, by decide, by decide, by decide, by decide⟩

/-- C2: for a client with a parseable first-visit date, a candidate
purchase is counted valid iff its value is strictly positive, its
lowercased product does not contain "2 for 1", its lowercased category is
not "retail", its date parses to a day at or after the first visit, and
its refunded flag is not "YES". -/
theorem claim2_valid_iff (sales : List Sale) (i : Nat) (c : Client) (vd : Int)
    (hv : parseDate (clientFirstVisit c) = some vd) (s : Sale)
    (hs : s ∈ clientMatching sales i c) :
    s ∈ clientValid sales i c ↔
      ((∃ q, saleValue s = some q ∧ JNum.Lt JNum.zero q)
        ∧ containsSub (saleProduct s) "2 for 1" = false
        ∧ saleCategory s ≠ "retail"
        ∧ (∃ sd, saleDate s = some sd ∧ vd ≤ sd)
        ∧ s.refundedCol ≠ some "YES") := by
  rw [clientValid, hv, validSales, List.mem_filter]
  simp only [hs, true_and]
  exact validSale_iff

/-- C2 witness: the scenario-A purchase is valid for the scenario-A
client. -/
theorem claim2_witness : saleA ∈ clientValid [saleA] 0 clientA :=
  (claim2_valid_iff [saleA] 0 clientA 1704067200000 (by decide) saleA
      (by decide)).mpr
    ⟨⟨⟨1000, 1⟩, by decide, by decide⟩, by decide, by decide,
      ⟨1704412800000, by decide, by decide⟩, by decide⟩

/-- C8: the classification is deterministic — two runs on identical input
arrays produce identical outputs (the embedding is a pure function of its
inputs; the only sort involved is by a consistent total key and is
stable). -/
theorem claim8_deterministic (clients1 clients2 : List Client)
    (sales1 sales2 : List Sale) (h1 : clients1 = clients2)
    (h2 : sales1 = sales2) :
    processedData sales1 clients1 = processedData sales2 clients2
    ∧ summaryStats (processedData sales1 clients1)
        = summaryStats (processedData sales2 clients2) := by
  subst h1
  subst h2
  exact ⟨rfl, rfl⟩

/-- C8 witness: two identical concrete runs agree. -/
theorem claim8_witness :
    processedData [saleA] [clientA] = processedData [saleA] [clientA]
    ∧ summaryStats (processedData [saleA] [clientA])
        = summaryStats (processedData [saleA] [clientA]) :=
  claim8_deterministic [clientA] [clientA] [saleA] [saleA] rfl rfl

/-- C9 (amended): a client row is dropped iff its 'Teacher' column is
present, non-empty, and its lowercased value contains "all trainers";
every kept row contributes exactly one processed result, at its original
index. -/
theorem claim9_amended (sales : List Sale) (clients : List Client) :
    processedData sales clients =
      ((List.enumFrom 0 clients).filter (fun p => !(isAllTrainersRow p.2))).map
        (fun p => processClient sales p.1 p.2) :=
  processedDataAux_enum sales 0 clients

/-- C3: when a client with a parseable first-visit date has at least one
valid candidate, the status is converted; the canonical first purchase is
the head of the stable sort — a valid candidate of minimal purchase date
that is the leftmost such candidate in input order — and
`daysToConversion` is the ceiling of the millisecond difference divided
by one day, which is never negative. -/
theorem claim3_converted (sales : List Sale) (i : Nat) (c : Client) (vd : Int)
    (hv : parseDate (clientFirstVisit c) = some vd)
    (hne : clientValid sales i c ≠ []) :
    (processClient sales i c).conversionStatus = ConvStatus.converted
    ∧ ∃ f, (stableSortByKey saleKey (clientValid sales i c)).head? = some f
        ∧ f ∈ clientValid sales i c
        ∧ (∀ g ∈ clientValid sales i c, saleKey f ≤ saleKey g)
        ∧ (∃ p q, clientValid sales i c = p ++ f :: q
            ∧ ∀ g ∈ p, saleKey f < saleKey g)
        ∧ (processClient sales i c).firstPurchaseDate = some (saleDateStr f)
        ∧ (processClient sales i c).firstPurchaseProduct = some (saleProductStr f)
        ∧ (processClient sales i c).firstPurchaseValue = some (saleValue f)
        ∧ ∃ pd, saleDate f = some pd
            ∧ (processClient sales i c).daysToConversion
                = some (jsCeilDiv (pd - vd) 86400000)
            ∧ 0 ≤ jsCeilDiv (pd - vd) 86400000 := by
  have hsne : stableSortByKey saleKey (clientValid sales i c) ≠ [] :=
    fun h => hne (stableSortByKey_eq_nil.mp h)
  cases hs : stableSortByKey saleKey (clientValid sales i c) with
  | nil => exact absurd hs hsne
  | cons f rest =>
    obtain ⟨hst, hdate, hprod, hval, hdays⟩ := processClient_conv sales i c f rest hs
    have hhead : (stableSortByKey saleKey (clientValid sales i c)).head? = some f := by
      rw [hs]
      rfl
    have hlm : leftMin saleKey (clientValid sales i c) = some f := by
      rw [← stableSortByKey_head_eq_leftMin, hhead]
    have hmem : f ∈ clientValid sales i c := leftMin_mem hlm
    have hvs : validSale (parseDate (clientFirstVisit c)) f = true := by
      have hmem' := hmem
      rw [clientValid, validSales, List.mem_filter] at hmem'
      exact hmem'.2
    obtain ⟨sd, vd', hsd, hv', hge⟩ := validSale_dates hvs
    rw [hv] at hv'
    injection hv' with hv'
    subst hv'
    refine ⟨hst, f, rfl, hmem, leftMin_le hlm, leftMin_leftmost hlm,
      hdate, hprod, hval, sd, hsd, ?_, ?_⟩
    · rw [hdays]
      simp [hsd, hv]
    · exact jsCeilDiv_nonneg (by omega) (by norm_num)

/-- C3 witness: scenario A — first visit 2024-01-01, purchase 2024-01-05
of value 1000 — converts in 4 days with first-purchase value 1000. -/
theorem claim3_witness :
    (processClient [saleA] 0 clientA).conversionStatus = ConvStatus.converted
    ∧ (processClient [saleA] 0 clientA).daysToConversion = some 4
    ∧ (processClient [saleA] 0 clientA).firstPurchaseValue
        = some (some ⟨1000, 1⟩) :=
  ⟨(claim3_converted [saleA] 0 clientA 1704067200000 (by decide) (by decide)).1,
    by decide, by decide⟩

/-- C4 (amended): a client with no valid candidate is `not_converted`;
with zero candidates the explanation is the no-records text; otherwise it
is built from the per-candidate failure reasons in candidate order — one
reason per failed predicate per candidate, duplicates kept rather than
deduplicated — joined with ", ", falling back to a generic text when no
reason is collected. -/
theorem claim4_amended (sales : List Sale) (i : Nat) (c : Client)
    (hempty : clientValid sales i c = []) :
    (processClient sales i c).conversionStatus = ConvStatus.not_converted
    ∧ (clientMatching sales i c = [] →
        (processClient sales i c).conversionDetails
          = "No purchase records found for this client")
    ∧ (clientMatching sales i c ≠ [] →
        (processClient sales i c).conversionDetails =
          (if (conversionReasons (parseDate (clientFirstVisit c))
              (clientMatching sales i c)).isEmpty
            then "Has purchases but none meet conversion criteria"
            else "Not converted: " ++ String.intercalate ", "
              (conversionReasons (parseDate (clientFirstVisit c))
                (clientMatching sales i c)))) := by
  have hs : stableSortByKey saleKey (clientValid sales i c) = [] := by
    rw [hempty]
    rfl
  obtain ⟨hst, _, _, _, _, hdet⟩ := processClient_nil sales i c hs
  refine ⟨hst, ?_, ?_⟩
  · intro hm
    rw [hdet]
    simp [hm]
  · intro hm
    cases hml : clientMatching sales i c with
    | nil => exact absurd hml hm
    | cons a as =>
      rw [hdet, hml]
      simp

/-- C4 counterexample: two retail candidates yield the reason "Retail
category excluded" twice in the explanation — the reasons are not
deduplicated, refuting "concatenating the distinct reasons". -/
theorem claim4_counterexample :
    (processClient [saleRetail, saleRetail] 0 clientA).conversionDetails
      = "Not converted: Retail category excluded, Retail category excluded"
    ∧ (processClient [saleRetail, saleRetail] 0 clientA).conversionDetails
      ≠ "Not converted: Retail category excluded" := by
  constructor <;> decide

/-- C4 witness: the amended theorem applied to the duplicate-retail
input. -/
theorem claim4_witness :
    (processClient [saleRetail, saleRetail] 0 clientA).conversionStatus
      = ConvStatus.not_converted :=
  (claim4_amended [saleRetail, saleRetail] 0 clientA (by decide)).1

/-- C5: a candidate purchase with strictly negative parsed value puts the
negative-value validation error on the client, and the client's
conversion status is still decided by whether some candidate is valid. -/
theorem claim5_negative_value (sales : List Sale) (i : Nat) (c : Client)
    (s : Sale) (q : JNum) (hs : s ∈ clientMatching sales i c)
    (hq : saleValue s = some q) (hneg : JNum.Lt q JNum.zero) :
    "Negative sale value detected" ∈ (processClient sales i c).validationErrors
    ∧ ((processClient sales i c).conversionStatus = ConvStatus.converted ↔
        ∃ t ∈ clientMatching sales i c,
          validSale (parseDate (clientFirstVisit c)) t = true) := by
  constructor
  · rw [processClient_errors]
    refine List.mem_append.mpr (Or.inr ?_)
    rw [negValueErrors]
    refine List.mem_map.mpr ⟨s, ?_, rfl⟩
    rw [List.mem_filter]
    exact ⟨hs, by simp [negValue, hq, hneg]⟩
  · constructor
    · intro hconv
      cases hsor : stableSortByKey saleKey (clientValid sales i c) with
      | nil =>
        have hst := (processClient_nil sales i c hsor).1
        rw [hst] at hconv
        exact absurd hconv (by simp)
      | cons f rest =>
        have hf : f ∈ clientValid sales i c := by
          have : f ∈ stableSortByKey saleKey (clientValid sales i c) := by
            rw [hsor]
            exact List.mem_cons_self _ _
          exact mem_stableSortByKey.mp this
        rw [clientValid, validSales, List.mem_filter] at hf
        exact ⟨f, hf.1, hf.2⟩
    · rintro ⟨t, htm, htv⟩
      have htc : t ∈ clientValid sales i c := by
        rw [clientValid, validSales, List.mem_filter]
        exact ⟨htm, htv⟩
      cases hsor : stableSortByKey saleKey (clientValid sales i c) with
      | nil =>
        rw [stableSortByKey_eq_nil] at hsor
        rw [hsor] at htc
        exact absurd htc (by simp)
      | cons f rest => exact (processClient_conv sales i c f rest hsor).1

/-- C5 witness: scenario D — a -50 purchase flags the error while a second
valid purchase still converts the client. -/
theorem claim5_witness :
    ("Negative sale value detected"
        ∈ (processClient [saleNeg, saleA] 0 clientA).validationErrors
      ∧ ((processClient [saleNeg, saleA] 0 clientA).conversionStatus
            = ConvStatus.converted ↔
          ∃ t ∈ clientMatching [saleNeg, saleA] 0 clientA,
            validSale (parseDate (clientFirstVisit clientA)) t = true))
    ∧ (processClient [saleNeg, saleA] 0 clientA).conversionStatus
        = ConvStatus.converted :=
  ⟨claim5_negative_value [saleNeg, saleA] 0 clientA saleNeg ⟨-50, 1⟩
      (by decide) (by decide) (by decide),
    by decide⟩

/-- C6: a present but unparseable first-visit date records the
invalid-date validation error, makes every date comparison fail so that
no candidate is valid, leaves the client `not_converted`, and the client
still contributes exactly one processed result wherever it sits in the
input. -/
theorem claim6_bad_visit_date (sales : List Sale) (pre post : List Client)
    (c : Client) (i : Nat)
    (hall : isAllTrainersRow c = false)
    (hfv : clientFirstVisit c ≠ "")
    (hparse : parseDate (clientFirstVisit c) = none) :
    "Invalid first visit date format" ∈ (processClient sales i c).validationErrors
    ∧ clientValid sales i c = []
    ∧ (processClient sales i c).conversionStatus = ConvStatus.not_converted
    ∧ processedData sales (pre ++ c :: post)
        = processedDataAux sales 0 pre
          ++ processClient sales pre.length c
            :: processedDataAux sales (pre.length + 1) post := by
  have hvalid : clientValid sales i c = [] := by
    rw [clientValid, hparse, validSales, filter_eq_nil_iff_all]
    intro s _
    exact validSale_none s
  have hsort : stableSortByKey saleKey (clientValid sales i c) = [] := by
    rw [hvalid]
    rfl
  refine ⟨?_, hvalid, (processClient_nil sales i c hsort).1, ?_⟩
  · rw [processClient_errors]
    refine List.mem_append.mpr (Or.inl ?_)
    rw [baseErrors]
    refine List.mem_append.mpr (Or.inr ?_)
    rw [if_pos ⟨hfv, hparse⟩]
    exact List.mem_singleton.mpr rfl
  · have h0 : (0 : Nat) + pre.length = pre.length := by omega
    rw [processedData, processedDataAux_append, h0, processedDataAux_cons,
      if_neg (show ¬(isAllTrainersRow c = true) by simp [hall])]

/-- C6 witness: a client with first-visit date "not-a-date" gets the
error, cannot convert, and still yields exactly one result. -/
theorem claim6_witness :
    "Invalid first visit date format"
        ∈ (processClient [saleA] 0 clientBadDate).validationErrors
    ∧ clientValid [saleA] 0 clientBadDate = []
    ∧ (processClient [saleA] 0 clientBadDate).conversionStatus
        = ConvStatus.not_converted
    ∧ processedData [saleA] [clientBadDate]
        = [processClient [saleA] 0 clientBadDate] :=
  claim6_bad_visit_date [saleA] [] [] clientBadDate 0 (by decide) (by decide)
    (by decide)

/-- C7: every derived rate is 0 rather than undefined on a zero
denominator: the summary conversion rate when there are no clients, the
average days-to-conversion when no client has one, and both rollup rates
of a location bucket with zero new clients. -/
theorem claim7_zero_denominator :
    (∀ data : List ProcessedClient, data.length = 0 →
        (summaryStats data).conversionRate = JNum.zero)
    ∧ (∀ data : List ProcessedClient,
        data.filter (fun c => c.daysToConversion.isSome) = [] →
          (summaryStats data).avgDaysToConversion = JNum.zero)
    ∧ (∀ rows : List TeacherRow, ∀ r ∈ locationRates rows,
        r.newClients.num = 0 →
          r.retentionRate = JNum.zero ∧ r.conversionRate = JNum.zero) := by
  refine ⟨?_, ?_, ?_⟩
  · intro data h
    simp [summaryStats, h]
  · intro data h
    simp [summaryStats, h]
  · intro rows r hr h0
    obtain ⟨p, hp, hpr⟩ := List.mem_map.mp (by rw [locationRates] at hr; exact hr)
    have hnum : p.2.newClients.num = 0 := by
      rw [← hpr] at h0
      exact h0
    have hguard : ¬ JNum.Lt JNum.zero p.2.newClients := by
      unfold JNum.Lt JNum.zero
      simp [hnum]
    rw [← hpr]
    constructor <;> simp [hguard]

/-- C7 witness: the empty run and a concrete zero bucket all report 0. -/
theorem claim7_witness :
    (summaryStats []).conversionRate = JNum.zero
    ∧ (summaryStats []).avgDaysToConversion = JNum.zero
    ∧ rowZeroRates ∈ locationRates [rowZero]
    ∧ rowZeroRates.retentionRate = JNum.zero
    ∧ rowZeroRates.conversionRate = JNum.zero := by
  obtain ⟨h1, h2, h3⟩ := claim7_zero_denominator
  have hm : rowZeroRates ∈ locationRates [rowZero] := by decide
  have h0 : rowZeroRates.newClients.num = 0 := by decide
  obtain ⟨ha, hb⟩ := h3 [rowZero] rowZeroRates hm h0
  exact ⟨h1 [] rfl, h2 [] rfl, hm, ha, hb⟩

/-- C10: a processed client is converted iff its four purchase fields are
all non-null; a not-converted client has all four null; hence the total
revenue summed over all clients equals the sum over converted clients
only. -/
theorem claim10_invariant :
    (∀ sales : List Sale, ∀ i : Nat, ∀ c : Client,
      ((processClient sales i c).conversionStatus = ConvStatus.converted ↔
        ((processClient sales i c).firstPurchaseDate ≠ none
          ∧ (processClient sales i c).firstPurchaseProduct ≠ none
          ∧ (processClient sales i c).firstPurchaseValue ≠ none
          ∧ (processClient sales i c).daysToConversion ≠ none))
      ∧ ((processClient sales i c).conversionStatus = ConvStatus.not_converted →
          ((processClient sales i c).firstPurchaseDate = none
            ∧ (processClient sales i c).firstPurchaseProduct = none
            ∧ (processClient sales i c).firstPurchaseValue = none
            ∧ (processClient sales i c).daysToConversion = none)))
    ∧ (∀ sales : List Sale, ∀ clients : List Client,
        (summaryStats (processedData sales clients)).totalRevenue
          = (summaryStats ((processedData sales clients).filter isConverted)).totalRevenue) := by
  constructor
  · intro sales i c
    cases hs : stableSortByKey saleKey (clientValid sales i c) with
    | nil =>
      obtain ⟨hst, h1, h2, h3, h4, _⟩ := processClient_nil sales i c hs
      constructor
      · rw [hst]
        constructor
        · intro h
          exact absurd h (by simp)
        · rintro ⟨hd, _, _, _⟩
          exact absurd h1 hd
      · intro _
        exact ⟨h1, h2, h3, h4⟩
    | cons f rest =>
      obtain ⟨hst, h1, h2, h3, h4⟩ := processClient_conv sales i c f rest hs
      have hmem : f ∈ clientValid sales i c := by
        have hin : f ∈ stableSortByKey saleKey (clientValid sales i c) := by
          rw [hs]
          exact List.mem_cons_self _ _
        exact mem_stableSortByKey.mp hin
      have hvs : validSale (parseDate (clientFirstVisit c)) f = true := by
        rw [clientValid, validSales, List.mem_filter] at hmem
        exact hmem.2
      obtain ⟨sd, vd, hsd, hvd, _⟩ := validSale_dates hvs
      have hdays : (processClient sales i c).daysToConversion
          = some (jsCeilDiv (sd - vd) 86400000) := by
        rw [h4]
        simp [hsd, hvd]
      constructor
      · rw [hst]
        constructor
        · intro _
          exact ⟨by rw [h1]; simp, by rw [h2]; simp, by rw [h3]; simp,
            by rw [hdays]; simp⟩
        · intro _
          rfl
      · rw [hst]
        intro h
        exact absurd h (by simp)
  · intro sales clients
    have hinv : ∀ p ∈ processedData sales clients,
        p.conversionStatus = ConvStatus.not_converted →
          p.firstPurchaseValue = none := by
      intro p hp hnc
      obtain ⟨j, c, _, rfl⟩ := mem_processedDataAux hp
      exact processClient_notconv_val hnc
    exact foldl_revenue_filter (processedData sales clients) hinv JNum.zero

/-- C10 witness: the invariant and the revenue identity applied to a
concrete converted run. -/
theorem claim10_witness :
    (processClient [saleA] 0 clientA).daysToConversion ≠ none
    ∧ (summaryStats (processedData [saleA] [clientA])).totalRevenue
        = (summaryStats ((processedData [saleA] [clientA]).filter
            isConverted)).totalRevenue := by
  obtain ⟨h1, h2⟩ := claim10_invariant
  exact ⟨((h1 [saleA] 0 clientA).1.mp (by decide)).2.2.2, h2 [saleA] [clientA]⟩

/-- C9 counterexample: a row whose teacher field does not *equal* the
sentinel "All Trainers" but merely contains it is dropped all the same,
producing zero results; so "every other row produces exactly one result"
fails as stated. -/
theorem claim9_counterexample :
    clientAllT.teacherCol ≠ some "All Trainers"
    ∧ processedData [] [clientAllT] = [] := by
  constructor
  · decide
  · rfl

end CsvRock
